import Mathlib

/-
Verification of the react-keydown repository's specification against its code.

Two coexisting implementations are embedded:
  * `Store`     — the array/linear-scan variant (src/src/store.js, with the
                  intermediate version src/unnamed/part_001 agreeing on every
                  executed line);
  * `Listeners` — the Map/Set plus single-focused-pointer variant
                  (src/unnamed/part_000, module "listeners").

JavaScript is embedded shallowly: module-level mutable state becomes explicit
state records, statements become state-passing functions, and statements that
throw (ReferenceError on an undeclared identifier, TypeError when iterating
null/undefined or reading a property of null) become `Except JsError`.
-/

/-- Errors a JavaScript evaluation can signal in the embedded fragments. -/
inductive JsError where
  | referenceError
  | typeError
deriving DecidableEq

/-- Keydown/click event data used by the code: `event.which` (the key code) and
`event.target.tagName` (the element tag of the event target). -/
structure Event where
  which : Nat
  tagName : String
deriving DecidableEq

/-- Modelled from the spec: lib/parse_keys and lib/keys are not under src/.
Per spec §4.1 a key descriptor is a comparable key/modifier record; the claims
under verification do not depend on its internals, so a descriptor is its key
code. -/
structure KeySet where
  key : Nat
deriving DecidableEq

/-- Modelled from the spec: lib/parse_keys is not under src/. Per spec §4.1 it
turns a key specification into a normalized list of comparable descriptors. -/
def parseKeys (keys : List Nat) : List KeySet :=
  keys.map (fun k => ⟨k⟩)

/-- Modelled from the spec: lib/match_keys is not under src/. Per spec §4.1 it
reports whether the event's key satisfies one descriptor (simple comparison). -/
def matchKeys (ks : KeySet) (e : Event) : Bool :=
  ks.key == e.which

/-- Modelled from the spec: in the listeners variant a binding whose key-set
entry is `null` ("key-set null means match any key", spec §3) matches every
event. -/
def matchKeysOpt (ks : Option KeySet) (e : Event) : Bool :=
  match ks with
  | none => true
  | some k => matchKeys k e

namespace Store

/-- Key-set value stored by `setBinding`: either the `allKeys()` sentinel from
lib/keys (match-any, produced when `keys` is absent) or a parsed list.
`allKeys(keySets)` in findBindingForEvent tests for the sentinel. Modelled from
the spec ("Key-set null means match any key") because lib/keys is not under
src/. -/
inductive KeySets where
  | all
  | sets (l : List KeySet)
deriving DecidableEq

/-- One element of the module-level `_handlers2` array: the object
`{ targetUuid, keySets, fn }` pushed by `setBinding`. Callbacks are named by
identifiers. -/
structure Handler where
  targetUuid : Nat
  keySets : KeySets
  fn : Nat
deriving DecidableEq

/-- A JavaScript object passed to the store API (a decorated class or a mounted
component instance): identified by reference (`id`), carrying the
`__reactKeydownUUID` expando property (`none` models the property being
absent/undefined). -/
structure Instance where
  id : Nat
  uuid : Option Nat
deriving DecidableEq

/-- Module-level state of src/src/store.js: the `_handlers2` array, the
`_instances2` array, and the uuid generator (lib/uuid is not under src/;
modelled from the spec as a fresh-identifier source — a counter starting at 1,
so a generated uuid is never falsy). -/
structure StoreState where
  handlers2 : List Handler
  instances2 : List Instance
  nextUuid : Nat
deriving DecidableEq

/-- State at module load: both arrays empty. -/
def initS : StoreState :=
  ⟨[], [], 1⟩

/-- Store.setBinding({keys, fn, target}): computes
`keys ? parseKeys(keys) : allKeys()`. `keys` is `none` when the property is
absent (undefined, falsy). -/
def mkKeySets : Option (List Nat) → KeySets
  | some ks => KeySets.sets (parseKeys ks)
  | none => KeySets.all

/-- Store.setBinding: if the target has no `__reactKeydownUUID` it is assigned
a fresh uuid; in either branch the handler `{targetUuid, keySets, fn}` is
pushed onto `_handlers2`. Returns the new state and the (possibly mutated)
target. -/
def setBinding (st : StoreState) (keys : Option (List Nat)) (fn : Nat)
    (target : Instance) : StoreState × Instance :=
  let keySets := mkKeySets keys
  match target.uuid with
  | none =>
      let u := st.nextUuid
      ({ st with
          handlers2 := st.handlers2 ++ [⟨u, keySets, fn⟩],
          nextUuid := st.nextUuid + 1 },
       { target with uuid := some u })
  | some u =>
      ({ st with handlers2 := st.handlers2 ++ [⟨u, keySets, fn⟩] }, target)

/-- Store.getBinding({__reactKeydownUUID}): the guard `if(!_handlers2)` never
fires (`_handlers2` is an Array, always truthy); `if(!__reactKeydownUUID)
return null` returns null when the property is absent; otherwise the
`while (i--)` loop scans `_handlers2` from the last element down and returns
`[[keySets, fn]]` for the first (i.e. most recently pushed) handler whose
`targetUuid` matches, and falls off the end (returning undefined) when none
matches. Both null and undefined results are `none`. -/
def getBinding (st : StoreState) : Option Nat → Option (List (KeySets × Nat))
  | none => none
  | some u =>
      match st.handlers2.reverse.find? (fun h => h.targetUuid == u) with
      | some h => some [(h.keySets, h.fn)]
      | none => none

/-- One pass of the dedup loop body in Store.activate at index `i`: JavaScript
`if (_instances2[i] == instance) { _instances2.pop(); }` — on a match it pops
the LAST element of the array, not the element at `i`. -/
def activateLoop (inst : Instance) : Nat → List Instance → List Instance
  | 0, arr => arr
  | i + 1, arr =>
      activateLoop inst i (if arr.get? i == some inst then arr.dropLast else arr)

/-- Store.activate's per-instance body: `let i = _instances2.length;
while (i--) { ... }` runs the loop body for i = length-1 down to 0, then
`_instances2.push(instance)`. -/
def activateOne (arr : List Instance) (inst : Instance) : List Instance :=
  (activateLoop inst arr.length arr).concat inst

/-- Store.activate(instances): `[].concat(instances)` flattens the argument to
an array; when it is empty nothing happens (the `_instances2.push(null)`
deactivation line is commented out in the source); otherwise each instance is
processed by the dedup-then-push body in order. -/
def activate (st : StoreState) (instances : List Instance) : StoreState :=
  if instances.isEmpty then st
  else { st with instances2 := instances.foldl activateOne st.instances2 }

/-- Store.deleteInstance(target): its first statement is
`_instances.delete(target)`, but no `_instances` binding is declared anywhere
in src/src/store.js (only `_instances2`; the `const _instances = new Set()`
line visible in the intermediate source is commented out), so evaluating the
identifier throws ReferenceError before the `_instances2` loop can run. -/
def deleteInstance (st : StoreState) (target : Instance) :
    Except JsError StoreState :=
  Except.error JsError.referenceError

/-- Match test for one stored binding entry `[keySets, fn]` in
findBindingForEvent: `allKeys(keySets) || keySets.some(keyMatchesEvent)`. -/
def keySetsMatch (ks : KeySets) (e : Event) : Bool :=
  match ks with
  | KeySets.all => true
  | KeySets.sets l => l.any (fun k => matchKeys k e)

/-- First matching binding in a list returned by getBinding: the
`for ( const [ keySets, fn ] of bindings )` loop returning `fn` on the first
match. -/
def firstMatch (bindings : List (KeySets × Nat)) (e : Event) : Option Nat :=
  (bindings.find? (fun b => keySetsMatch b.1 e)).map (fun b => b.2)

/-- Scan of Store.findBindingForEvent over instances in reverse storage order
(the `while (i--)` loop walks `_instances2` from its last element down):
`this.getBinding(instance)` yielding null or undefined makes the subsequent
`for ... of bindings` throw TypeError; a match returns `{ fn, instance }`. -/
def findScan (st : StoreState) (e : Event) :
    List Instance → Except JsError (Option (Nat × Instance))
  | [] => Except.ok none
  | inst :: rest =>
      match getBinding st inst.uuid with
      | none => Except.error JsError.typeError
      | some bindings =>
          match firstMatch bindings e with
          | some fn => Except.ok (some (fn, inst))
          | none => findScan st e rest

/-- Store.findBindingForEvent(event): the guard `if ( _instances2 )` is always
true (an Array is truthy), the instances are scanned from the top of the
activation array down, and `return null` is reached when no instance yields a
match. -/
def findBindingForEvent (st : StoreState) (e : Event) :
    Except JsError (Option (Nat × Instance)) :=
  findScan st e st.instances2.reverse

/-- Property read `_instances2.size` performed by Store.isEmpty: `_instances2`
is `new Array()`, and JavaScript Arrays have a `length` property but no `size`
property (`size` is the Map/Set API), so the read yields undefined for every
array value. -/
def jsArraySize (arr : List Instance) : Option Nat :=
  none

/-- Store.isEmpty(): `return !_instances2.size` — the negation of the `size`
property read; `!undefined` is true, `!n` for a number is true exactly for 0. -/
def isEmpty (st : StoreState) : Bool :=
  match jsArraySize st.instances2 with
  | none => true
  | some n => n == 0

end Store

namespace Listeners

/-- A mounted component instance in the listeners variant: identified by
reference (`id`), with `cls` standing for `instance.constructor.prototype`,
the class-prototype key of the `_handlers` Map. -/
structure LInstance where
  id : Nat
  cls : Nat
deriving DecidableEq

/-- Value stored in the `_handlers` Map for one class: `{ bindings,
instances }`. `bindings` is a Map from key-set arrays to callbacks — each
setBinding call produces a FRESH array (`[null]` or the result of parseKeys),
so Map keys never collide and the Map is an append-ordered list of
(key-set list, callback) entries. `instances` is a Set of instances in
insertion order. -/
structure LHandler where
  bindings : List (List (Option KeySet) × Nat)
  instances : List LInstance
deriving DecidableEq

/-- Lookup in the `_handlers` Map (`_handlers.get(target)`); `none` models the
undefined result for an absent key. -/
def mapGet (m : List (Nat × LHandler)) (k : Nat) : Option LHandler :=
  (m.find? (fun p => p.1 == k)).map (fun p => p.2)

/-- Update in the `_handlers` Map (`_handlers.set(target, v)` or mutating the
stored handler object in place): replaces the value of an existing key keeping
its position (Map keys are unique, so at most one entry can match), otherwise
appends in insertion order. -/
def mapSet : List (Nat × LHandler) → Nat → LHandler → List (Nat × LHandler)
  | [], k, v => [(k, v)]
  | p :: rest, k, v =>
      if p.1 == k then (k, v) :: rest else p :: mapSet rest k v

/-- Set.add on the instances Set: appends unless already present. -/
def setAdd (l : List LInstance) (i : LInstance) : List LInstance :=
  if l.contains i then l else l ++ [i]

/-- Set.delete on the instances Set: removes the element. -/
def setDelete (l : List LInstance) (i : LInstance) : List LInstance :=
  l.filter (fun x => x != i)

/-- Module-level state of the listeners module (src/unnamed/part_000): the
`_handlers` Map, `_focusedInstance`, the two boolean guard flags, and — to
state the attachment claims — the number of copies of the click and keydown
listeners currently attached to the document. -/
structure LState where
  handlers : List (Nat × LHandler)
  focusedInstance : Option LInstance
  clicksBound : Bool
  keysBound : Bool
  clickAttached : Nat
  keysAttached : Nat
deriving DecidableEq

/-- State at module load. -/
def initL : LState :=
  ⟨[], none, false, false, 0, 0⟩

/-- Key-set array built by the listeners setBinding:
`!keys ? [ null ] : parseKeys( keys )`. -/
def mkKeySetsL : Option (List Nat) → List (Option KeySet)
  | none => [none]
  | some ks => (parseKeys ks).map some

/-- Listeners setBinding({keys, fn, target}): creates the handler entry
`{ bindings: new Map(), instances: new Set() }` when the class has none, then
`handler.bindings.set(keySets, fn)` — an append, because the key-set array is
freshly allocated on every call. -/
def setBindingL (st : LState) (keys : Option (List Nat)) (fn : Nat)
    (cls : Nat) : LState :=
  let keySets := mkKeySetsL keys
  let handler :=
    match mapGet st.handlers cls with
    | some h => h
    | none => (⟨[], []⟩ : LHandler)
  { st with
      handlers :=
        mapSet st.handlers cls
          { handler with bindings := handler.bindings ++ [(keySets, fn)] } }

/-- Predicate of `_unbindClicks`: `![ ..._handlers ].some( ( [, { instances } ]
) => instances.size )` — true when every tracked class's instance Set is
empty. -/
def allEmpty (hs : List (Nat × LHandler)) : Bool :=
  hs.all (fun p => p.2.instances.isEmpty)

/-- Listeners `_bindClicks`: attaches the document click listener only when the
`_clicksBound` flag is unset. -/
def lBindClicks (st : LState) : LState :=
  if st.clicksBound then st
  else { st with clicksBound := true, clickAttached := st.clickAttached + 1 }

/-- Listeners `_unbindClicks`: detaches the document click listener when the
flag is set and no tracked class has a remaining instance. -/
def lUnbindClicks (st : LState) : LState :=
  if st.clicksBound && allEmpty st.handlers then
    { st with clicksBound := false, clickAttached := st.clickAttached - 1 }
  else st

/-- Listeners `_bindKeys`: attaches the document keydown listener only when the
`_keysBound` flag is unset. -/
def lBindKeys (st : LState) : LState :=
  if st.keysBound then st
  else { st with keysBound := true, keysAttached := st.keysAttached + 1 }

/-- Listeners `_unbindKeys`: detaches the document keydown listener when the
flag is set. -/
def lUnbindKeys (st : LState) : LState :=
  if st.keysBound then
    { st with keysBound := false, keysAttached := st.keysAttached - 1 }
  else st

/-- Listeners `_activate(instance)`: sets `_focusedInstance` and then
`instance ? _bindKeys() : _unbindKeys()` (`none` models the null/undefined
deactivation sentinel). -/
def lActivate (st : LState) (o : Option LInstance) : LState :=
  let st1 := { st with focusedInstance := o }
  match o with
  | some _ => lBindKeys st1
  | none => lUnbindKeys st1

/-- Listeners `_deleteInstance(target)`:
`getBinding(target.constructor.prototype).instances.delete(target)` — `none`
when the class has no handler entry, in which case reading `.instances` of
undefined throws TypeError. -/
def deleteInstanceL (st : LState) (i : LInstance) : Option LState :=
  match mapGet st.handlers i.cls with
  | none => none
  | some h =>
      some { st with
              handlers :=
                mapSet st.handlers i.cls
                  { h with instances := setDelete h.instances i } }

/-- Listeners `_shouldConsider(event)`: true when the event target's tag is not
one of INPUT, SELECT, TEXTAREA. -/
def shouldConsider (e : Event) : Bool :=
  !(["INPUT", "SELECT", "TEXTAREA"].contains e.tagName)

/-- Match test of one bindings entry in `_handleKeyDown`:
`!keySets || keySets.some( keySet => matchKeys( { keySet, event } ) )` — the
first disjunct is always false because the Map key `keySets` is an array
(arrays are truthy). -/
def bindingMatchesL (keySets : List (Option KeySet)) (e : Event) : Bool :=
  keySets.any (fun ks => matchKeysOpt ks e)

/-- Listeners `_handleKeyDown(event)`: when the event should be considered, it
reads `getBinding( _focusedInstance.constructor.prototype )` — TypeError when
`_focusedInstance` is null (property access on null) or when its class has no
handler (destructuring `{ bindings }` of undefined) — and calls every matching
callback with the focused instance as `this`. The result lists the
(callback, this-instance) invocations in order. -/
def handleKeyDownL (st : LState) (e : Event) :
    Except JsError (List (Nat × LInstance)) :=
  if shouldConsider e then
    match st.focusedInstance with
    | none => Except.error JsError.typeError
    | some inst =>
        match mapGet st.handlers inst.cls with
        | none => Except.error JsError.typeError
        | some h =>
            Except.ok
              ((h.bindings.filter (fun b => bindingMatchesL b.1 e)).map
                (fun b => (b.2, inst)))
  else Except.ok []

/-- Dispatch of a document-level keydown: the handler runs only while it is
attached to the document; with no listener attached the event invokes
nothing. -/
def dispatchKeydown (st : LState) (e : Event) :
    Except JsError (List (Nat × LInstance)) :=
  if st.keysAttached == 0 then Except.ok []
  else handleKeyDownL st e

/-- Externally triggered operations against the listeners module:
`setB` is setBinding; `mount`/`unmount` are onMount/onUnmount;
`activateEvt` covers every other entry into `_activate` — the deferred
`setTimeout(() => _activate(instance), 0)` scheduled by onMount, the click
handler's `_activate(focusedInstance)` where the DOM search found
`focusedInstance` (possibly null), and the onfocus handlers installed by
`_bindInputs`. -/
inductive LOp where
  | setB (keys : Option (List Nat)) (fn : Nat) (cls : Nat)
  | mount (inst : LInstance)
  | unmount (inst : LInstance)
  | activateEvt (o : Option LInstance)
deriving DecidableEq

/-- One operation against the listeners module state. Mutations performed
before a thrown TypeError persist (module state is global): onMount runs
`_bindClicks()` before `_addInstance(instance)` throws on an unbound class;
onUnmount's `_deleteInstance(instance)` throws first, leaving the state
unchanged. `_bindInputs` touches only DOM elements, and the activation that
onMount defers to the next event-loop turn arrives as a separate
`activateEvt` operation. -/
def stepL (st : LState) : LOp → LState
  | LOp.setB keys fn cls => setBindingL st keys fn cls
  | LOp.mount i =>
      let st1 := lBindClicks st
      match mapGet st1.handlers i.cls with
      | none => st1
      | some h =>
          { st1 with
              handlers :=
                mapSet st1.handlers i.cls
                  { h with instances := setAdd h.instances i } }
  | LOp.unmount i =>
      match deleteInstanceL st i with
      | none => st
      | some st1 =>
          let st2 := lUnbindClicks st1
          if st.focusedInstance == some i then lActivate st2 none else st2
  | LOp.activateEvt o => lActivate st o

/-- Run a sequence of operations from module load. -/
def runL (ops : List LOp) : LState :=
  ops.foldl stepL initL

/-- An operation that passes a non-null instance to `_activate`. -/
def opActivatesSome : LOp → Bool
  | LOp.activateEvt (some _) => true
  | _ => false

/-- Getter `getBinding(target)` of the listeners module:
`_handlers.get(target)`. -/
def getBindingL (st : LState) (cls : Nat) : Option LHandler :=
  mapGet st.handlers cls

/-- Ownership of a callback: `fn` is among the callbacks registered in the
bindings of the given instance's class. -/
def ownedByL (st : LState) (inst : LInstance) (fn : Nat) : Bool :=
  match mapGet st.handlers inst.cls with
  | some h => (h.bindings.map (fun b => b.2)).contains fn
  | none => false

/-- Detachment condition of the click listener during onUnmount: the deletion
succeeds, the flag was set, and afterwards every tracked class's instance set
is empty. -/
def unmountDetachCond (st : LState) (i : LInstance) : Bool :=
  match deleteInstanceL st i with
  | none => false
  | some st1 => st.clicksBound && allEmpty st1.handlers

end Listeners

namespace Store

/-- Instance `j` is scanned past by findBindingForEvent: getBinding yields a
bindings list and no entry matches the event. -/
def instNoMatch (st : StoreState) (j : Instance) (e : Event) : Bool :=
  match getBinding st j.uuid with
  | some b => (firstMatch b e).isNone
  | none => false

/-- Instance `j` yields the callback `fn` for the event: getBinding yields a
bindings list whose first matching entry has callback `fn`. -/
def instMatchWith (st : StoreState) (j : Instance) (e : Event) (fn : Nat) :
    Bool :=
  match getBinding st j.uuid with
  | some b => firstMatch b e == some fn
  | none => false

/-- Two consecutive setBinding calls against the same target (threading the
target through, since the first call may assign its uuid). -/
def setBindingTwice (st : StoreState) (k1 k2 : Option (List Nat))
    (f1 f2 : Nat) (tgt : Instance) : StoreState × Instance :=
  setBinding (setBinding st k1 f1 tgt).1 k2 f2 (setBinding st k1 f1 tgt).2

end Store

namespace Listeners

/-- Bindings already registered for a class (empty when the class has no
handler entry yet). -/
def prevBindings (st : LState) (cls : Nat) :
    List (List (Option KeySet) × Nat) :=
  match mapGet st.handlers cls with
  | some h => h.bindings
  | none => []

/-- Reference-count invariant of the document listeners: the number of
attached copies of each listener is exactly what its boolean guard flag
says. -/
def refOk (st : LState) : Prop :=
  st.clickAttached = (if st.clicksBound then 1 else 0) ∧
  st.keysAttached = (if st.keysBound then 1 else 0)

/-- The keydown path is fully off: flag cleared and no listener attached. -/
def keysOff (st : LState) : Prop :=
  st.keysBound = false ∧ st.keysAttached = 0

end Listeners

/-- Target/instance objects and events used as the concrete inputs of the
witness and counterexample theorems below. -/
def cxTgt : Store.Instance :=
  ⟨0, none⟩

def cxTgtB : Store.Instance :=
  ⟨1, none⟩

def cxEvent : Event :=
  ⟨65, "DIV"⟩

/-- Two registrations against the same (initially uuid-free) target. -/
def cxReg1 : Store.StoreState × Store.Instance :=
  Store.setBinding Store.initS (some [65]) 1 cxTgt

def cxReg2 : Store.StoreState × Store.Instance :=
  Store.setBinding cxReg1.1 (some [66]) 2 cxReg1.2

/-- Activation stack holding cxTgt below cxTgtB, built through the API. -/
def cxStackAB : Store.StoreState :=
  Store.activate (Store.activate Store.initS [cxTgt]) [cxTgtB]

/-- A store state in which cxReg2's target is the only activated instance. -/
def cxStoreReady : Store.StoreState :=
  Store.activate cxReg2.1 [cxReg2.2]

/-- Concrete listeners instance of class 0 and the state reached by binding a
key for class 0, mounting the instance and letting its deferred activation
fire. -/
def cxLInst : Listeners.LInstance :=
  ⟨5, 0⟩

def cxLState : Listeners.LState :=
  Listeners.runL
    [Listeners.LOp.setB (some [65]) 7 0,
     Listeners.LOp.mount cxLInst,
     Listeners.LOp.activateEvt (some cxLInst)]

/-- Looking up the key just written by Map.set yields the written value. -/
theorem Listeners.mapGet_mapSet_self (k : Nat) (v : Listeners.LHandler) :
    ∀ m : List (Nat × Listeners.LHandler),
      Listeners.mapGet (Listeners.mapSet m k v) k = some v := by
  intro m
  induction m with
  | nil => simp [Listeners.mapSet, Listeners.mapGet]
  | cons p rest ih =>
      by_cases h : p.1 = k
      · simp [Listeners.mapSet, Listeners.mapGet, h]
      · simp only [Listeners.mapSet, if_neg (by simpa using h)]
        simpa [Listeners.mapGet, List.find?_cons, h] using ih

/-- C3 (amended): each later registration against the same identity is
appended to the handler store and never merged with or overwrites an earlier
one; getBinding retrieves all registered pairs in the Map-based listeners
variant, but in the array-based store variant it returns only the most
recently registered (key-set, callback) pair for that identity. -/
theorem c3_registrations_append_lookup_latest (st : Store.StoreState)
    (k1 k2 : Option (List Nat)) (f1 f2 : Nat) (tgt : Store.Instance)
    (stL : Listeners.LState) (ka kb : Option (List Nat)) (fa fb : Nat)
    (cls : Nat) :
    (∃ u,
      (Store.setBindingTwice st k1 k2 f1 f2 tgt).1.handlers2
        = st.handlers2
            ++ [⟨u, Store.mkKeySets k1, f1⟩, ⟨u, Store.mkKeySets k2, f2⟩] ∧
      Store.getBinding (Store.setBindingTwice st k1 k2 f1 f2 tgt).1
          (Store.setBindingTwice st k1 k2 f1 f2 tgt).2.uuid
        = some [(Store.mkKeySets k2, f2)]) ∧
    (Listeners.mapGet
        (Listeners.setBindingL (Listeners.setBindingL stL ka fa cls) kb fb
          cls).handlers cls).map (fun h => h.bindings)
      = some (Listeners.prevBindings stL cls
          ++ [(Listeners.mkKeySetsL ka, fa), (Listeners.mkKeySetsL kb, fb)]) := by
  constructor
  · cases h : tgt.uuid with
    | none =>
        refine ⟨st.nextUuid, ?_, ?_⟩
        · simp [Store.setBindingTwice, Store.setBinding, h]
        · simp [Store.setBindingTwice, Store.setBinding, Store.getBinding, h,
            List.reverse_append, List.find?_cons]
    | some u =>
        refine ⟨u, ?_, ?_⟩
        · simp [Store.setBindingTwice, Store.setBinding, h]
        · simp [Store.setBindingTwice, Store.setBinding, Store.getBinding, h,
            List.reverse_append, List.find?_cons]
  · cases hm : Listeners.mapGet stL.handlers cls with
    | none =>
        simp [Listeners.setBindingL, Listeners.prevBindings, hm,
          Listeners.mapGet_mapSet_self]
    | some h0 =>
        simp [Listeners.setBindingL, Listeners.prevBindings, hm,
          Listeners.mapGet_mapSet_self]

/-- C10: in the array-based store variant, isEmpty() returns true in every
state — also when instances are tracked — because it negates the `.size`
property of a plain Array, which is always undefined; its result never
reflects the number of stored instances. -/
theorem c10_isEmpty_always_true (st : Store.StoreState) :
    Store.isEmpty st = true :=
  rfl

/-- C4: refuted evaluation at the failing inputs. deleteInstance throws
ReferenceError on every call (its first statement reads the undeclared
identifier `_instances`), and findBindingForEvent throws TypeError after a
no-binding instance is activated (getBinding returns null, and the
`for ... of` loop over null throws) — the claim says both complete as silent
no-ops returning null/undefined. The spec's silent-tolerance reading is the
code's own documented intent (the commented-out Set-based lines), so the code
is the slip. -/
theorem c4_absent_cases_throw :
    Store.deleteInstance Store.initS cxTgt
      = Except.error JsError.referenceError ∧
    Store.findBindingForEvent (Store.activate Store.initS [cxTgt]) cxEvent
      = Except.error JsError.typeError :=
  ⟨rfl, rfl⟩

/-- C5: refuted evaluation at the failing input. With activation stack
[cxTgt, cxTgtB], re-activating cxTgt pops the TOP element (cxTgtB) rather
than removing the matched entry, yielding [cxTgt, cxTgt] instead of the
move-to-top result [cxTgtB, cxTgt]: the multiset of other tracked instances
is not preserved, contradicting the dedup loop's own comment that it deletes
the instance before re-adding it. -/
theorem c5_activate_drops_top :
    cxStackAB.instances2 = [cxTgt, cxTgtB] ∧
    (Store.activate cxStackAB [cxTgt]).instances2 = [cxTgt, cxTgt] ∧
    (Store.activate cxStackAB [cxTgt]).instances2 ≠ [cxTgtB, cxTgt] := by
  refine ⟨rfl, rfl, ?_⟩
  decide

/-- C2: registering a binding with a key specification, callback and target
and then querying the same identity returns the registered pair — in the
array store variant getBinding yields exactly `[[keySets, fn]]` with the
parsed key-set and the same callback, and in the listeners variant the
class's bindings Map has that pair as its most recent entry. -/
theorem c2_setBinding_then_getBinding (st : Store.StoreState)
    (keys : Option (List Nat)) (fn : Nat) (tgt : Store.Instance)
    (stL : Listeners.LState) (cls : Nat) :
    Store.getBinding (Store.setBinding st keys fn tgt).1
        (Store.setBinding st keys fn tgt).2.uuid
      = some [(Store.mkKeySets keys, fn)] ∧
    (Listeners.mapGet (Listeners.setBindingL stL keys fn cls).handlers
        cls).map (fun h => h.bindings.getLast?)
      = some (some (Listeners.mkKeySetsL keys, fn)) := by
  constructor
  · cases h : tgt.uuid with
    | none =>
        simp [Store.setBinding, Store.getBinding, h, List.reverse_append,
          List.find?_cons]
    | some u =>
        simp [Store.setBinding, Store.getBinding, h, List.reverse_append,
          List.find?_cons]
  · simp [Listeners.setBindingL, Listeners.mapGet_mapSet_self,
      List.getLast?_concat]

/-- C7: a keydown event whose target is a text-entry element (tag INPUT,
SELECT or TEXTAREA, per `_shouldConsider`) never invokes any bound callback,
whatever the focused instance and the registered bindings: the handler
returns having called nothing, and so does the document-level dispatch. -/
theorem c7_text_entry_never_dispatches (st : Listeners.LState) (e : Event)
    (h : e.tagName = "INPUT" ∨ e.tagName = "SELECT" ∨ e.tagName = "TEXTAREA") :
    Listeners.handleKeyDownL st e = Except.ok [] ∧
    Listeners.dispatchKeydown st e = Except.ok [] := by
  have hs : Listeners.shouldConsider e = false := by
    rcases h with h | h | h <;> simp [Listeners.shouldConsider, h]
  have h1 : Listeners.handleKeyDownL st e = Except.ok [] := by
    simp [Listeners.handleKeyDownL, hs]
  refine ⟨h1, ?_⟩
  by_cases hk : st.keysAttached = 0 <;>
    simp [Listeners.dispatchKeydown, hk, h1]

/-- Witness for C7: in a state with a focused instance whose class has a
binding matching key 65, a keydown on an INPUT element still invokes
nothing. -/
theorem c7_text_entry_never_dispatches_witness :
    Listeners.handleKeyDownL cxLState ⟨65, "INPUT"⟩ = Except.ok [] ∧
    Listeners.dispatchKeydown cxLState ⟨65, "INPUT"⟩ = Except.ok [] :=
  c7_text_entry_never_dispatches cxLState ⟨65, "INPUT"⟩ (Or.inl rfl)

/-- Activation's dedup loop leaves the array untouched when the activated
instance is not stored in it (no index ever compares equal). -/
theorem Store.activateLoop_of_not_mem (inst : Store.Instance) :
    ∀ (n : Nat) (arr : List Store.Instance), inst ∉ arr →
      Store.activateLoop inst n arr = arr := by
  intro n
  induction n with
  | zero => intro arr _; rfl
  | succ i ih =>
      intro arr h
      have hcond : (arr.get? i == some inst) = false := by
        cases hg : arr.get? i with
        | none => rfl
        | some x =>
            have hx : x ∈ arr := List.get?_mem hg
            have hne : x ≠ inst := fun he => h (he ▸ hx)
            simp [hne]
      have hif : (if arr.get? i == some inst then arr.dropLast else arr)
          = arr := by
        rw [hcond]
        rfl
      rw [Store.activateLoop, hif]
      exact ih arr h

/-- C9: activating any instance — also one never passed to
addInstance/onMount — makes it the focused pointer: in the array-based store
variant it ends on top of the activation stack (the last array slot, hence
the first candidate examined by findBindingForEvent's top-down scan, and for
an untracked instance a pure push), and in the listeners variant `_activate`
sets the focused pointer to it unconditionally. -/
theorem c9_activate_makes_focused (stS : Store.StoreState)
    (inst : Store.Instance) (stL : Listeners.LState)
    (j : Listeners.LInstance) :
    ((Store.activate stS [inst]).instances2).getLast? = some inst ∧
    ((Store.activate stS [inst]).instances2).reverse.head? = some inst ∧
    (Listeners.lActivate stL (some j)).focusedInstance = some j ∧
    (inst ∉ stS.instances2 →
      (Store.activate stS [inst]).instances2 = stS.instances2 ++ [inst]) := by
  have hact : (Store.activate stS [inst]).instances2
      = (Store.activateLoop inst stS.instances2.length
          stS.instances2).concat inst := by
    simp [Store.activate, Store.activateOne]
  refine ⟨?_, ?_, ?_, ?_⟩
  · rw [hact]; simp [List.concat_eq_append, List.getLast?_concat]
  · rw [hact]
    simp [List.head?_reverse, List.concat_eq_append, List.getLast?_concat]
  · by_cases hk : stL.keysBound <;>
      simp [Listeners.lActivate, Listeners.lBindKeys, hk]
  · intro h
    rw [hact, Store.activateLoop_of_not_mem inst _ _ h]
    simp [List.concat_eq_append]

/-- Witness for C9: a concrete never-tracked instance activated on the empty
store ends as the whole stack, and a concrete listeners activation sets the
focused pointer. -/
theorem c9_activate_makes_focused_witness :
    ((Store.activate Store.initS [cxTgt]).instances2).getLast? = some cxTgt ∧
    (Store.activate Store.initS [cxTgt]).instances2
      = Store.initS.instances2 ++ [cxTgt] ∧
    (Listeners.lActivate Listeners.initL (some cxLInst)).focusedInstance
      = some cxLInst := by
  have h := c9_activate_makes_focused Store.initS cxTgt Listeners.initL cxLInst
  exact ⟨h.1, h.2.2.2 (by decide), h.2.2.1⟩

/-- Soundness of the findBindingForEvent scan: an ok result names the first
instance of the scanned list (top of the activation array first) that is not
scanned past, and the callback comes from that instance's bindings. -/
theorem Store.findScan_topmost (st : Store.StoreState) (e : Event) :
    ∀ (l : List Store.Instance) (fn : Nat) (inst : Store.Instance),
      Store.findScan st e l = Except.ok (some (fn, inst)) →
      (l.dropWhile (fun j => Store.instNoMatch st j e)).head? = some inst ∧
      Store.instMatchWith st inst e fn = true := by
  intro l
  induction l with
  | nil =>
      intro fn inst h
      simp [Store.findScan] at h
  | cons j rest ih =>
      intro fn inst h
      cases hg : Store.getBinding st j.uuid with
      | none => simp [Store.findScan, hg] at h
      | some b =>
          cases hf : Store.firstMatch b e with
          | some fn0 =>
              simp [Store.findScan, hg, hf] at h
              obtain ⟨h1, h2⟩ := h
              subst h1
              subst h2
              have hno : Store.instNoMatch st j e = false := by
                simp [Store.instNoMatch, hg, hf]
              constructor
              · simp [List.dropWhile_cons, hno]
              · simp [Store.instMatchWith, hg, hf]
          | none =>
              have hno : Store.instNoMatch st j e = true := by
                simp [Store.instNoMatch, hg, hf]
              have hrec := ih fn inst (by simpa [Store.findScan, hg, hf] using h)
              constructor
              · simp [List.dropWhile_cons, hno, hrec.1]
              · exact hrec.2

/-- C1: a dispatched keydown invokes a callback only for the eligible
instance. In the listeners variant every callback `_handleKeyDown` invokes is
called on the focused instance and is registered under the focused instance's
class; in the array store variant, when findBindingForEvent yields a
(callback, instance) pair, the instance is the topmost one of the
activation-ordered stack that is not scanned past (every instance above it
has bindings that fail to match) and the callback is taken from that
instance's own bindings — no other instance's callback is ever produced by
the dispatch. -/
theorem c1_dispatch_only_eligible_instance :
    (∀ (st : Listeners.LState) (e : Event) (fn : Nat)
        (inst : Listeners.LInstance)
        (invoked : List (Nat × Listeners.LInstance)),
        Listeners.handleKeyDownL st e = Except.ok invoked →
        (fn, inst) ∈ invoked →
        st.focusedInstance = some inst ∧
        Listeners.ownedByL st inst fn = true) ∧
    (∀ (st : Store.StoreState) (e : Event) (fn : Nat) (inst : Store.Instance),
        Store.findBindingForEvent st e = Except.ok (some (fn, inst)) →
        (st.instances2.reverse.dropWhile
            (fun j => Store.instNoMatch st j e)).head? = some inst ∧
        Store.instMatchWith st inst e fn = true) := by
  constructor
  · intro st e fn inst invoked h hmem
    unfold Listeners.handleKeyDownL at h
    by_cases hs : Listeners.shouldConsider e
    · rw [if_pos hs] at h
      cases hfoc : st.focusedInstance with
      | none => rw [hfoc] at h; cases h
      | some i0 =>
          rw [hfoc] at h
          cases hm : Listeners.mapGet st.handlers i0.cls with
          | none => simp [hm] at h
          | some hd =>
              simp only [hm] at h
              cases h
              simp only [List.mem_map, List.mem_filter] at hmem
              obtain ⟨b, ⟨hmemb, hmatch⟩, heq⟩ := hmem
              have hfn : b.2 = fn := congrArg Prod.fst heq
              have hinst : i0 = inst := congrArg Prod.snd heq
              subst hinst
              refine ⟨rfl, ?_⟩
              simp only [Listeners.ownedByL, hm]
              have hmap : fn ∈ hd.bindings.map (fun b => b.2) :=
                List.mem_map.mpr ⟨b, hmemb, hfn⟩
              simpa [List.elem_iff] using hmap
    · rw [if_neg hs] at h
      cases h
      simp at hmem
  · intro st e fn inst h
    exact Store.findScan_topmost st e _ fn inst h

/-- Witness for C1: in a concrete listeners state the single invoked callback
is owned by the focused instance, and in a concrete store state the scan
result is the topmost matching instance with its own callback. -/
theorem c1_dispatch_only_eligible_instance_witness :
    (cxLState.focusedInstance = some cxLInst ∧
      Listeners.ownedByL cxLState cxLInst 7 = true) ∧
    ((cxStoreReady.instances2.reverse.dropWhile
        (fun j => Store.instNoMatch cxStoreReady j ⟨66, "DIV"⟩)).head?
        = some cxReg2.2 ∧
      Store.instMatchWith cxStoreReady cxReg2.2 ⟨66, "DIV"⟩ 2 = true) :=
  ⟨c1_dispatch_only_eligible_instance.1 cxLState ⟨65, "DIV"⟩ 7 cxLInst
      [(7, cxLInst)] rfl (by simp),
   c1_dispatch_only_eligible_instance.2 cxStoreReady ⟨66, "DIV"⟩ 2
      cxReg2.2 rfl⟩

/-- C3 counterexample: after two registrations against the same identity
(so `_handlers2` holds two entries for its uuid), getBinding returns a
single-element list containing only the most recent (key-set, callback) pair;
the first registered pair is absent from the result, refuting "getBinding ...
retrieves all registered (key-set, callback) pairs, not just one of them". -/
theorem c3_getBinding_latest_only :
    cxReg2.1.handlers2.length = 2 ∧
    Store.getBinding cxReg2.1 cxReg2.2.uuid
      = some [(Store.KeySets.sets [⟨66⟩], 2)] ∧
    ((Store.getBinding cxReg2.1 cxReg2.2.uuid).getD []).length = 1 ∧
    ¬ (Store.KeySets.sets [⟨65⟩], 1)
        ∈ (Store.getBinding cxReg2.1 cxReg2.2.uuid).getD [] := by
  refine ⟨rfl, rfl, rfl, ?_⟩
  decide

namespace Listeners

/-- Updating only the handlers Map leaves the reference-count invariant
untouched. -/
theorem refOk_set_handlers (st : LState) (m : List (Nat × LHandler))
    (h : refOk st) : refOk { st with handlers := m } :=
  h

/-- Attaching clicks under the flag guard preserves the invariant. -/
theorem refOk_lBindClicks (st : LState) (h : refOk st) :
    refOk (lBindClicks st) := by
  obtain ⟨hc, hk⟩ := h
  by_cases hb : st.clicksBound = true
  · simp [lBindClicks, hb, refOk, hc, hk]
  · have hc0 : st.clickAttached = 0 := by
      rw [hc, if_neg hb]
    simp [lBindClicks, hb, refOk, hc0, hk]

/-- Detaching clicks under the flag guard preserves the invariant. -/
theorem refOk_lUnbindClicks (st : LState) (h : refOk st) :
    refOk (lUnbindClicks st) := by
  obtain ⟨hc, hk⟩ := h
  by_cases hb : (st.clicksBound && allEmpty st.handlers) = true
  · have hcb : st.clicksBound = true := by
      cases hx : st.clicksBound
      · rw [hx] at hb; simp at hb
      · rfl
    have hc1 : st.clickAttached = 1 := by
      rw [hc, if_pos hcb]
    simp [lUnbindClicks, hb, refOk, hc1, hk]
  · simp [lUnbindClicks, hb, refOk, hc, hk]

/-- Attaching keys under the flag guard preserves the invariant. -/
theorem refOk_lBindKeys (st : LState) (h : refOk st) :
    refOk (lBindKeys st) := by
  obtain ⟨hc, hk⟩ := h
  by_cases hb : st.keysBound = true
  · simp [lBindKeys, hb, refOk, hc, hk]
  · have hk0 : st.keysAttached = 0 := by
      rw [hk, if_neg hb]
    simp [lBindKeys, hb, refOk, hc, hk0]

/-- Detaching keys under the flag guard preserves the invariant. -/
theorem refOk_lUnbindKeys (st : LState) (h : refOk st) :
    refOk (lUnbindKeys st) := by
  obtain ⟨hc, hk⟩ := h
  by_cases hb : st.keysBound = true
  · have hk1 : st.keysAttached = 1 := by
      rw [hk, if_pos hb]
    simp [lUnbindKeys, hb, refOk, hc, hk1]
  · simp [lUnbindKeys, hb, refOk, hc, hk]

/-- Focus changes preserve the invariant. -/
theorem refOk_lActivate (st : LState) (o : Option LInstance) (h : refOk st) :
    refOk (lActivate st o) := by
  cases o with
  | none => exact refOk_lUnbindKeys _ h
  | some j => exact refOk_lBindKeys _ h

/-- Every operation preserves the reference-count invariant. -/
theorem refOk_stepL (st : LState) (op : LOp) (h : refOk st) :
    refOk (stepL st op) := by
  cases op with
  | setB keys fn cls =>
      exact refOk_set_handlers st _ h
  | mount i =>
      have h1 : refOk (lBindClicks st) := refOk_lBindClicks st h
      cases hm : mapGet (lBindClicks st).handlers i.cls with
      | none => simpa [stepL, hm] using h1
      | some hd =>
          simp only [stepL, hm]
          exact refOk_set_handlers _ _ h1
  | unmount i =>
      cases hm : mapGet st.handlers i.cls with
      | none => simpa [stepL, deleteInstanceL, hm] using h
      | some hd =>
          simp only [stepL, deleteInstanceL, hm]
          by_cases hf : (st.focusedInstance == some i) = true
          · simp only [if_pos hf]
            exact refOk_lActivate _ none
              (refOk_lUnbindClicks _ (refOk_set_handlers st _ h))
          · simp only [if_neg hf]
            exact refOk_lUnbindClicks _ (refOk_set_handlers st _ h)
  | activateEvt o =>
      exact refOk_lActivate st o h

/-- The invariant is preserved along any operation sequence. -/
theorem refOk_foldl (ops : List LOp) :
    ∀ st : LState, refOk st → refOk (ops.foldl stepL st) := by
  induction ops with
  | nil => intro st h; exact h
  | cons op rest ih =>
      intro st h
      exact ih (stepL st op) (refOk_stepL st op h)

/-- Every reachable state satisfies the reference-count invariant. -/
theorem refOk_runL (ops : List LOp) : refOk (runL ops) := by
  have hinit : refOk initL := by
    constructor <;> rfl
  exact refOk_foldl ops initL hinit

end Listeners

/-- C8: across every sequence of operations against the listeners module, the
document-level click and keydown listeners are each attached at most once
(the boolean flags guard repeat mounts), and the onUnmount step detaches the
click listener (its attach count drops from 1 to 0) exactly when the
instance's deletion succeeds, the click flag was set, and afterwards every
tracked class's instance set is empty. -/
theorem c8_listener_refcount_and_detach (ops : List Listeners.LOp) :
    (Listeners.runL ops).clickAttached ≤ 1 ∧
    (Listeners.runL ops).keysAttached ≤ 1 ∧
    ∀ i : Listeners.LInstance,
      ((Listeners.stepL (Listeners.runL ops)
            (Listeners.LOp.unmount i)).clickAttached = 0 ∧
        (Listeners.runL ops).clickAttached = 1) ↔
      Listeners.unmountDetachCond (Listeners.runL ops) i = true := by
  obtain ⟨hc, hk⟩ := Listeners.refOk_runL ops
  set st := Listeners.runL ops with hst
  refine ⟨?_, ?_, ?_⟩
  · rw [hc]; split <;> omega
  · rw [hk]; split <;> omega
  · intro i
    cases hm : Listeners.mapGet st.handlers i.cls with
    | none =>
        simp only [Listeners.stepL, Listeners.deleteInstanceL, hm,
          Listeners.unmountDetachCond]
        constructor
        · rintro ⟨h0, h1⟩
          rw [h0] at h1
          cases h1
        · intro hx
          cases hx
    | some hd =>
        simp only [Listeners.stepL, Listeners.deleteInstanceL, hm,
          Listeners.unmountDetachCond]
        have hatt : ∀ s2 : Listeners.LState,
            (if (st.focusedInstance == some i) = true
              then Listeners.lActivate s2 none else s2).clickAttached
            = s2.clickAttached := by
          intro s2
          by_cases hf : (st.focusedInstance == some i) = true
          · simp only [if_pos hf, Listeners.lActivate, Listeners.lUnbindKeys]
            split <;> rfl
          · simp only [if_neg hf]
        rw [hatt]
        by_cases hcb : st.clicksBound = true
        · have hc1 : st.clickAttached = 1 := by rw [hc, if_pos hcb]
          cases hae : Listeners.allEmpty (Listeners.mapSet st.handlers i.cls
              { hd with instances := Listeners.setDelete hd.instances i }) with
          | true =>
              simp [Listeners.lUnbindClicks, hcb, hae, hc1]
          | false =>
              simp [Listeners.lUnbindClicks, hcb, hae, hc1]
        · have hc0 : st.clickAttached = 0 := by rw [hc, if_neg hcb]
          have hcbf : st.clicksBound = false := by
            cases hx : st.clicksBound
            · rfl
            · exact absurd hx hcb
          simp [Listeners.lUnbindClicks, hcbf, hc0]

namespace Listeners

/-- Mount's click binding cannot start the keydown path. -/
theorem keysOff_lBindClicks (st : LState) (h : keysOff st) :
    keysOff (lBindClicks st) := by
  obtain ⟨hb, ha⟩ := h
  by_cases hbc : st.clicksBound = true <;>
    simp [lBindClicks, hbc, keysOff, hb, ha]

/-- Unmount's click unbinding cannot start the keydown path. -/
theorem keysOff_lUnbindClicks (st : LState) (h : keysOff st) :
    keysOff (lUnbindClicks st) := by
  obtain ⟨hb, ha⟩ := h
  by_cases hbc : (st.clicksBound && allEmpty st.handlers) = true <;>
    simp [lUnbindClicks, hbc, keysOff, hb, ha]

/-- Deactivation cannot start the keydown path. -/
theorem keysOff_lActivate_none (st : LState) (h : keysOff st) :
    keysOff (lActivate st none) := by
  obtain ⟨hb, ha⟩ := h
  simp [lActivate, lUnbindKeys, keysOff, hb, ha]

/-- No operation other than an activation with a non-null instance can start
the keydown path. -/
theorem keysOff_stepL (st : LState) (op : LOp)
    (hop : opActivatesSome op = false) (h : keysOff st) :
    keysOff (stepL st op) := by
  cases op with
  | setB keys fn cls => exact h
  | mount i =>
      have h1 : keysOff (lBindClicks st) := keysOff_lBindClicks st h
      cases hm : mapGet (lBindClicks st).handlers i.cls with
      | none => simpa [stepL, hm] using h1
      | some hd =>
          simp only [stepL, hm]
          exact h1
  | unmount i =>
      cases hm : mapGet st.handlers i.cls with
      | none => simpa [stepL, deleteInstanceL, hm] using h
      | some hd =>
          simp only [stepL, deleteInstanceL, hm]
          by_cases hf : (st.focusedInstance == some i) = true
          · simp only [if_pos hf]
            exact keysOff_lActivate_none _ (keysOff_lUnbindClicks _ h)
          · simp only [if_neg hf]
            exact keysOff_lUnbindClicks _ h
  | activateEvt o =>
      cases o with
      | none => exact keysOff_lActivate_none st h
      | some j => simp [opActivatesSome] at hop

/-- The keydown path stays off along any activation-free operation
sequence. -/
theorem keysOff_foldl (ops : List LOp)
    (hops : ∀ o ∈ ops, opActivatesSome o = false) :
    ∀ s : LState, keysOff s → keysOff (ops.foldl stepL s) := by
  induction ops with
  | nil => intro s h; exact h
  | cons op rest ih =>
      intro s h
      exact ih (fun o ho => hops o (List.mem_cons_of_mem op ho))
        (stepL s op) (keysOff_stepL s op (hops op (List.mem_cons_self op rest)) h)

/-- With the keydown listener off, a document keydown invokes nothing. -/
theorem dispatchKeydown_of_keysOff (st : LState) (h : keysOff st)
    (e : Event) : dispatchKeydown st e = Except.ok [] := by
  simp [dispatchKeydown, h.2]

/-- Unbinding clicks never touches the keydown flag. -/
theorem lUnbindClicks_keysBound (st : LState) :
    (lUnbindClicks st).keysBound = st.keysBound := by
  unfold lUnbindClicks
  split <;> rfl

/-- Unbinding clicks never touches the keydown listener count. -/
theorem lUnbindClicks_keysAttached (st : LState) :
    (lUnbindClicks st).keysAttached = st.keysAttached := by
  unfold lUnbindClicks
  split <;> rfl

/-- Deactivating clears the focused pointer. -/
theorem lActivate_none_focused (s : LState) :
    (lActivate s none).focusedInstance = none := by
  cases hx : s.keysBound <;> simp [lActivate, lUnbindKeys, hx]

/-- Deactivating clears the keydown flag. -/
theorem lActivate_none_keysBound (s : LState) :
    (lActivate s none).keysBound = false := by
  cases hx : s.keysBound <;> simp [lActivate, lUnbindKeys, hx]

/-- Deactivating detaches one keydown listener copy when one was attached. -/
theorem lActivate_none_keysAttached (s : LState) :
    (lActivate s none).keysAttached
      = if s.keysBound = true then s.keysAttached - 1 else s.keysAttached := by
  cases hx : s.keysBound <;> simp [lActivate, lUnbindKeys, hx]

end Listeners

/-- C6: from any state whose focused instance is `i` (with `i`'s class
tracked, so the deletion succeeds, and the keydown listener count matching
its flag), calling onUnmount with `i` leaves the focused pointer none and
the keydown listener detached, and every keydown dispatched after any
further sequence of operations that contains no activation of an instance
invokes no bound callback. -/
theorem c6_unmount_focused_stops_dispatch (st : Listeners.LState)
    (i : Listeners.LInstance)
    (hfoc : st.focusedInstance = some i)
    (hcls : (Listeners.mapGet st.handlers i.cls).isSome = true)
    (hinv : st.keysAttached = (if st.keysBound = true then 1 else 0)) :
    (Listeners.stepL st (Listeners.LOp.unmount i)).focusedInstance = none ∧
    Listeners.keysOff (Listeners.stepL st (Listeners.LOp.unmount i)) ∧
    ∀ ops : List Listeners.LOp,
      (∀ o ∈ ops, Listeners.opActivatesSome o = false) →
      ∀ e : Event,
        Listeners.dispatchKeydown
          (ops.foldl Listeners.stepL
            (Listeners.stepL st (Listeners.LOp.unmount i))) e
          = Except.ok [] := by
  cases hm : Listeners.mapGet st.handlers i.cls with
  | none => rw [hm] at hcls; cases hcls
  | some hd =>
      have hfb : (st.focusedInstance == some i) = true := by
        rw [hfoc]
        simp
      have hfocus : (Listeners.stepL st
          (Listeners.LOp.unmount i)).focusedInstance = none := by
        simp only [Listeners.stepL, Listeners.deleteInstanceL, hm, if_pos hfb]
        exact Listeners.lActivate_none_focused _
      have hoff : Listeners.keysOff
          (Listeners.stepL st (Listeners.LOp.unmount i)) := by
        simp only [Listeners.stepL, Listeners.deleteInstanceL, hm, if_pos hfb]
        constructor
        · exact Listeners.lActivate_none_keysBound _
        · rw [Listeners.lActivate_none_keysAttached,
            Listeners.lUnbindClicks_keysBound,
            Listeners.lUnbindClicks_keysAttached]
          show (if st.keysBound = true then st.keysAttached - 1
            else st.keysAttached) = 0
          rw [hinv]
          by_cases hb : st.keysBound = true <;> simp [hb]
      refine ⟨hfocus, hoff, ?_⟩
      intro ops hops e
      exact Listeners.dispatchKeydown_of_keysOff _
        (Listeners.keysOff_foldl ops hops _ hoff) e

/-- Witness for C6: unmounting the focused instance of a concrete reachable
state clears the focused pointer, and an immediate keydown afterwards
invokes nothing. -/
theorem c6_unmount_focused_stops_dispatch_witness :
    (Listeners.stepL cxLState
        (Listeners.LOp.unmount cxLInst)).focusedInstance = none ∧
    Listeners.dispatchKeydown
        (Listeners.stepL cxLState (Listeners.LOp.unmount cxLInst))
        ⟨65, "DIV"⟩
      = Except.ok [] := by
  have h := c6_unmount_focused_stops_dispatch cxLState cxLInst
    (by decide) (by decide) (by decide)
  refine ⟨h.1, ?_⟩
  have h2 := h.2.2 [] (by intro o ho; cases ho) ⟨65, "DIV"⟩
  simpa using h2

/-- Witness for C8: after a concrete bind-then-mount run the click listener is
attached exactly once, and unmounting the only instance detaches it (the
detach condition holds and the count drops to zero). -/
theorem c8_listener_refcount_and_detach_witness :
    (Listeners.runL [Listeners.LOp.setB (some [65]) 7 0,
        Listeners.LOp.mount cxLInst]).clickAttached ≤ 1 ∧
    ((Listeners.stepL
          (Listeners.runL [Listeners.LOp.setB (some [65]) 7 0,
            Listeners.LOp.mount cxLInst])
          (Listeners.LOp.unmount cxLInst)).clickAttached = 0 ∧
      (Listeners.runL [Listeners.LOp.setB (some [65]) 7 0,
          Listeners.LOp.mount cxLInst]).clickAttached = 1) := by
  have h := c8_listener_refcount_and_detach
    [Listeners.LOp.setB (some [65]) 7 0, Listeners.LOp.mount cxLInst]
  exact ⟨h.1, (h.2.2 cxLInst).mpr (by decide)⟩
